import Mathlib

/-!
Verification development for the Agri RAG query-routing core.

This file gives a shallow embedding, in Lean, of the routing/fusion layer of
the repository:

* `src/modules/query_router.py` — `classify_query` (keyword and regex scoring)
  and `route_query` (backend orchestration and answer fusion);
* `src/modules/kg_handler.py` — the keyword-extraction stage of `query_neo4j`;
* `src/modules/rag_pipeline.py` — `SimpleMemory` and the `rag` closure built by
  `build_hybrid_rag`.

Python strings are modelled as `String` / `List Char`; Python exceptions are
modelled with `Except Unit`; the backends (`query_neo4j`, `rag_function`, the
generation model) are function parameters, matching how the router receives
`rag_function` and how the adapters wrap external services.  The regular
expressions used by the source are compiled by hand into explicit matchers on
`List Char` that reproduce Python `re.search` / `re.findall` semantics for the
concrete patterns appearing in the source (word boundaries, `[s]?`, `\s+`,
newline-free `.*`, leftmost matching).
-/

namespace AgriRAG

/-- ASCII lowering of one character, the effect of Python `str.lower` on the
ASCII questions handled here. -/
def lowChar (c : Char) : Char := c.toLower

/-- Lower-cased character list of a question (`query.lower()`). -/
def lowStr (s : String) : List Char := s.toList.map lowChar

/-- Python regex word character (`\w`, ASCII): letters, digits, underscore. -/
def isWordChar (c : Char) : Bool := c.isAlphanum || c = '_'

/-- Is there a word boundary between `prev` (the character just before the
current position, `none` at the start of the string) and a word character? -/
def boundaryBefore : Option Char → Bool
  | none => true
  | some c => !isWordChar c

/-- Is there a word boundary after a word character, given the rest of the
string? -/
def boundaryAfter : List Char → Bool
  | [] => true
  | c :: _ => !isWordChar c

/-- `leadsWith pat s` : `pat` is a prefix of `s`. -/
def leadsWith : List Char → List Char → Bool
  | [], _ => true
  | _ :: _, [] => false
  | c :: cs, d :: ds => c == d && leadsWith cs ds

/-- Drop `pat` from the front of `s` when `pat` is a prefix of `s`. -/
def stripWord : List Char → List Char → Option (List Char)
  | [], s => some s
  | _ :: _, [] => none
  | c :: cs, d :: ds => if c == d then stripWord cs ds else none

/-- Python substring containment `pat in s`. -/
def containsSeq (pat : List Char) : List Char → Bool
  | [] => leadsWith pat []
  | c :: rest => leadsWith pat (c :: rest) || containsSeq pat rest

/-- Python regex whitespace `\s` (ASCII part). -/
def isPySpace (c : Char) : Bool :=
  c = ' ' || c = '\t' || c = '\n' || c = '\r' || c = '\x0b' || c = '\x0c'

/-- Match `\b w \b` at the head of `s` (`prev` is the character before `s`);
returns the rest of the string after the match. -/
def wordBoundedAt (prev : Option Char) (w : List Char) (s : List Char) :
    Option (List Char) :=
  if boundaryBefore prev then
    match stripWord w s with
    | some rest => if boundaryAfter rest then some rest else none
    | none => none
  else none

/-- Match `\b (w₁|w₂|…) \b` at the head of `s`, alternatives tried in order;
returns the rest and the new previous character (the matched word's last). -/
def altBoundedAt (prev : Option Char) (ws : List (List Char)) (s : List Char) :
    Option (List Char × Option Char) :=
  match ws with
  | [] => none
  | w :: rest =>
    match wordBoundedAt prev w s with
    | some r => some (r, w.getLast?)
    | none => altBoundedAt prev rest s

/-- Search for `\b(alt)\b` where the characters skipped before the match may
not include a newline: the semantics of `.*\b(alt)\b` continuing from the
current position (`.` does not match `\n` in Python). -/
def seekAltNoNl (ws : List (List Char)) : Option Char → List Char → Bool
  | prev, [] => (altBoundedAt prev ws []).isSome
  | prev, c :: rest =>
    (altBoundedAt prev ws (c :: rest)).isSome ||
      (c != '\n' && seekAltNoNl ws (some c) rest)

/-- `re.search` of `\b(alt₁)\b.*\b(alt₂)\b`: scan all start positions for the
first group, then look for the second group with a newline-free gap. -/
def seekSeqAlt (ws1 ws2 : List (List Char)) : Option Char → List Char → Bool
  | _, [] => false
  | prev, c :: rest =>
    (match altBoundedAt prev ws1 (c :: rest) with
     | some (r, p) => seekAltNoNl ws2 p r
     | none => false) ||
      seekSeqAlt ws1 ws2 (some c) rest

/-- Match `\b w` (boundary before only, none after) at the head of `s`. -/
def stemAt (prev : Option Char) (w : List Char) (s : List Char) :
    Option (List Char) :=
  if boundaryBefore prev then stripWord w s else none

/-- `re.search` of `\b w₁ .* \b w₂ \b` (no boundary after `w₁`), e.g. the
source pattern `\brelation.*\bbetween\b`. -/
def seekStemThenWord (w1 w2 : List Char) : Option Char → List Char → Bool
  | _, [] => false
  | prev, c :: rest =>
    (match stemAt prev w1 (c :: rest) with
     | some r => seekAltNoNl [w2] w1.getLast? r
     | none => false) ||
      seekStemThenWord w1 w2 (some c) rest

/-- Drop any further whitespace characters. -/
def dropSpacesMany : List Char → List Char
  | [] => []
  | c :: rest => if isPySpace c then dropSpacesMany rest else c :: rest

/-- Consume `\s+` (at least one whitespace character). -/
def dropSpaces1 : List Char → Option (List Char)
  | [] => none
  | c :: rest => if isPySpace c then some (dropSpacesMany rest) else none

/-- `re.search` of `\b w₁ \s+ w₂ \b`, e.g. `\bhow\s+to\b`, `\bwhat\s+is\b`. -/
def seekSpacedPair (w1 w2 : List Char) : Option Char → List Char → Bool
  | _, [] => false
  | prev, c :: rest =>
    (match stemAt prev w1 (c :: rest) with
     | some r =>
       match dropSpaces1 r with
       | some r2 =>
         match stripWord w2 r2 with
         | some r3 => boundaryAfter r3
         | none => false
       | none => false
     | none => false) ||
      seekSpacedPair w1 w2 (some c) rest

/-- `re.search` of `\b(alt)\b` anywhere in the string, e.g. `\bexplain\b`,
`\bstep[s]?\b`. -/
def seekAlt (ws : List (List Char)) : Option Char → List Char → Bool
  | prev, [] => (altBoundedAt prev ws []).isSome
  | prev, c :: rest =>
    (altBoundedAt prev ws (c :: rest)).isSome || seekAlt ws (some c) rest

/-- `KG_KEYWORDS` of src/modules/query_router.py. -/
def KG_KEYWORDS : List String :=
  ["scheme", "schemes", "policy", "policies", "subsidy", "subsidies",
   "eligibility", "eligible", "benefit", "benefits", "government",
   "state", "available in", "grown in", "relationship", "related to",
   "pm-kisan", "pmfby", "fasal bima", "kisan credit", "kcc",
   "crop insurance", "what schemes", "which schemes", "list schemes"]

/-- `RAG_KEYWORDS` of src/modules/query_router.py. -/
def RAG_KEYWORDS : List String :=
  ["how to", "what is", "explain", "describe", "tell me about",
   "guide", "process", "step", "method", "technique", "practice",
   "example", "detail", "information", "learn", "understand"]

/-- `sum(1 for kw in kws if kw in q)`: number of keywords of `kws` occurring
as substrings of `q`. -/
def keywordScore (kws : List String) (q : List Char) : Nat :=
  kws.countP (fun kw => containsSeq kw.toList q)

/-- The bonus added by the `kg_patterns` loop of `classify_query`: 2 points
per matching pattern. -/
def kgPatternScore (q : List Char) : Nat :=
  (if seekSeqAlt ["schemes".toList, "scheme".toList] ["for".toList] none q
   then 2 else 0) +
  (if seekSeqAlt ["eligible".toList] ["for".toList] none q then 2 else 0) +
  (if seekSeqAlt ["available".toList] ["in".toList] none q then 2 else 0) +
  (if seekStemThenWord "relation".toList "between".toList none q
   then 2 else 0) +
  (if seekSeqAlt ["list".toList] ["schemes".toList, "scheme".toList] none q
   then 2 else 0)

/-- The bonus added by the `rag_patterns` loop of `classify_query`. -/
def ragPatternScore (q : List Char) : Nat :=
  (if seekSpacedPair "how".toList "to".toList none q then 2 else 0) +
  (if seekSpacedPair "what".toList "is".toList none q then 2 else 0) +
  (if seekAlt ["explain".toList] none q then 2 else 0) +
  (if seekAlt ["steps".toList, "step".toList] none q then 2 else 0)

/-- `kg_score` as computed by `classify_query`. -/
def kgScore (query : String) : Nat :=
  keywordScore KG_KEYWORDS (lowStr query) + kgPatternScore (lowStr query)

/-- `rag_score` as computed by `classify_query`. -/
def ragScore (query : String) : Nat :=
  keywordScore RAG_KEYWORDS (lowStr query) + ragPatternScore (lowStr query)

/-- Routing tag returned by `classify_query` (`'kg'`, `'rag'`, `'hybrid'`). -/
inductive QueryType
  | kg
  | rag
  | hybrid
deriving DecidableEq, BEq, Repr

/-- `classify_query` of src/modules/query_router.py: keyword/pattern scoring
followed by the decision ladder. -/
def classify_query (query : String) : QueryType :=
  if kgScore query > 0 ∧ ragScore query > 0 then QueryType.hybrid
  else if kgScore query > ragScore query then QueryType.kg
  else if ragScore query > kgScore query then QueryType.rag
  else QueryType.hybrid

/-- `p.startswith(s)` on Lean strings. -/
def startsL (p s : String) : Bool := leadsWith p.toList s.toList

/-- The sentinel returned by `route_query` when the combined answer is empty. -/
def NO_ANSWER : String := "❌ No answer found."

/-- The "no structured data" marker returned by `query_neo4j` when both graph
lookups come back empty (src/modules/kg_handler.py, line 75). -/
def KG_EMPTY : String := "📊 No structured data found in the Knowledge Graph."

/-- The filter `kg_result and not kg_result.startswith("❌") and not
kg_result.startswith("📊 No")` used by the hybrid branch of `route_query` to
decide that the graph produced a real (non-empty, non-marker) result. -/
def isRealKG (s : String) : Bool :=
  s != "" && !startsL "❌" s && !startsL "📊 No" s

/-- `route_query` of src/modules/query_router.py.  The two backends are
function parameters returning `Except Unit String`: `Except.error` models the
call raising an exception, `Except.ok` its return value.  The result is
`Except.error` exactly when an uncaught exception escapes `route_query`.
Where Python retries `rag_function(query)` in an `except` handler after the
same call just raised (lines 122/126), the model calls the pure adapter once,
which yields the identical outcome. -/
def routeQuery (kgAdapter ragAdapter : String → Except Unit String)
    (useKg : Bool) (query : String) : Except Unit String :=
  let qt := classify_query query
  let combined : Except Unit String :=
    if qt = QueryType.kg ∧ useKg = true then
      match kgAdapter query with
      | Except.error _ => ragAdapter query
      | Except.ok kgResult =>
        if kgResult != "" && !startsL "❌" kgResult then
          let base := kgResult ++ "\n\n"
          match ragAdapter query with
          | Except.error _ => Except.ok base
          | Except.ok ragResult =>
            if ragResult != "" && !startsL "❌" ragResult then
              Except.ok (base ++ "\n📖 Additional Context:\n" ++ ragResult)
            else Except.ok base
        else ragAdapter query
    else if qt = QueryType.rag then
      ragAdapter query
    else
      let kgAnswer : String :=
        if useKg then
          match kgAdapter query with
          | Except.error _ => ""
          | Except.ok kgResult => if isRealKG kgResult then kgResult else ""
        else ""
      match ragAdapter query with
      | Except.error e => Except.error e
      | Except.ok ragAnswer =>
        Except.ok
          (if kgAnswer != "" && ragAnswer != "" then
            kgAnswer ++ "\n\n" ++ ragAnswer
          else if kgAnswer != "" then kgAnswer
          else ragAnswer)
  Except.map (fun s => if s != "" then s else NO_ANSWER) combined

/-- `SimpleMemory` of src/modules/rag_pipeline.py: capacity `k` and the
`chat_history` list of (input, output) turns. -/
structure SimpleMemory where
  k : Nat
  chat_history : List (String × String)
deriving DecidableEq, Repr

/-- `SimpleMemory(k)`: fresh memory with empty history. -/
def SimpleMemory.init (k : Nat) : SimpleMemory := ⟨k, []⟩

/-- `save_context`: append the turn, then `pop(0)` if the history exceeds
`k`. -/
def SimpleMemory.save_context (m : SimpleMemory) (input output : String) :
    SimpleMemory :=
  let h := m.chat_history ++ [(input, output)]
  if h.length > m.k then { m with chat_history := h.tail }
  else { m with chat_history := h }

/-- `get_history`. -/
def SimpleMemory.get_history (m : SimpleMemory) : List (String × String) :=
  m.chat_history

/-! Keyword extraction of `query_neo4j` (src/modules/kg_handler.py, lines
34–43): `re.findall(r'pm[- ]?kisan|pmfby|fasal bima|kcc|scheme|subsidy|policy|rice|wheat|maize|cotton', q)`
takes the leftmost match; otherwise the first `\b[a-z]{3,}\b` word not in the
stop list; otherwise the whole lower-cased question. -/

/-- Match the regex branch `pm[- ]?kisan` at the head of `s`, returning the
matched text (greedy optional separator, as the regex engine would). -/
def pmKisanAt (s : List Char) : Option (List Char) :=
  match stripWord "pm".toList s with
  | none => none
  | some [] => none
  | some (c :: rest) =>
    if c = '-' || c = ' ' then
      if leadsWith "kisan".toList rest then
        some ("pm".toList ++ c :: "kisan".toList)
      else none
    else
      if leadsWith "kisan".toList (c :: rest) then some "pmkisan".toList
      else none

/-- The literal alternatives of the keyword regex, in alternation order. -/
def KW_LITERALS : List String :=
  ["pmfby", "fasal bima", "kcc", "scheme", "subsidy", "policy",
   "rice", "wheat", "maize", "cotton"]

/-- Try every alternative of the keyword regex at the head of `s` (alternation
order: `pm[- ]?kisan` first, then the literals). -/
def kwAt (s : List Char) : Option (List Char) :=
  match pmKisanAt s with
  | some m => some m
  | none =>
    (KW_LITERALS.find? (fun kw => leadsWith kw.toList s)).map String.toList

/-- Leftmost match of the keyword regex: the first element of
`re.findall(...)` when it is non-empty. -/
def scanKw : List Char → Option (List Char)
  | [] => none
  | c :: rest =>
    match kwAt (c :: rest) with
    | some m => some m
    | none => scanKw rest

/-- Split into maximal runs of word characters (`cur` accumulates the current
run, reversed). -/
def wordRunsAux : List Char → List Char → List (List Char)
  | cur, [] => if cur.isEmpty then [] else [cur.reverse]
  | cur, c :: rest =>
    if isWordChar c then wordRunsAux (c :: cur) rest
    else if cur.isEmpty then wordRunsAux [] rest
    else cur.reverse :: wordRunsAux [] rest

/-- Maximal word-character runs of `s`. -/
def wordRuns (s : List Char) : List (List Char) := wordRunsAux [] s

/-- Is `c` a lower-case ASCII letter (`[a-z]`)? -/
def isLowerAlpha (c : Char) : Bool := 'a' ≤ c && c ≤ 'z'

/-- `re.findall(r'\b[a-z]{3,}\b', q)`: the maximal word-character runs that
consist only of `[a-z]` and have length at least 3 (a run containing a digit
or underscore has no interior word boundary, so the pattern cannot match any
part of it). -/
def contentWords (q : List Char) : List (List Char) :=
  (wordRuns q).filter (fun w => decide (3 ≤ w.length) && w.all isLowerAlpha)

/-- The stop list of `query_neo4j`. -/
def STOPWORDS : List String :=
  ["what", "is", "about", "scheme", "schemes", "for", "the", "a", "of"]

/-- The content words of the lower-cased question surviving the stop-list
filter. -/
def filteredWords (question : String) : List (List Char) :=
  (contentWords (lowStr question)).filter
    (fun w => !STOPWORDS.any (fun st => st.toList == w))

/-- The keyword-extraction stage of `query_neo4j` (src/modules/kg_handler.py,
lines 34–43). -/
def extractKeyword (question : String) : String :=
  match scanKw (lowStr question) with
  | some kw => String.mk kw
  | none =>
    match filteredWords question with
    | w :: _ => String.mk w
    | [] => String.mk (lowStr question)

/-- The high-value terms of the extraction step in the order they appear in
the source regex, read as a priority list. -/
def KW_PRIORITY : List String :=
  ["pm-kisan", "pm kisan", "pmkisan", "pmfby", "fasal bima", "kcc", "scheme",
   "subsidy", "policy", "rice", "wheat", "maize", "cotton"]

/-- Keyword extraction as the spec words it: the fixed term list is consulted
"in priority order — first match wins", i.e. the first listed term occurring
anywhere in the lower-cased question is chosen, with the same content-word and
whole-question fallbacks as the source. -/
def extractKeywordSpecOrder (question : String) : String :=
  match KW_PRIORITY.find? (fun kw => containsSeq kw.toList (lowStr question)) with
  | some kw => kw
  | none =>
    match filteredWords question with
    | w :: _ => String.mk w
    | [] => String.mk (lowStr question)

/-! The `rag` closure built by `build_hybrid_rag` (src/modules/rag_pipeline.py,
lines 200–240).  The PDF step and the web step are each modelled by an
`Option (Except Unit String)`: `none` means the retriever is absent
(`pdf_retriever` is `None` / `build_web_retriever` returned `None`),
`some (Except.error ())` means the step raised (caught by the source), and
`some (Except.ok a)` means the chain produced the answer `a`.  The generation
model `llm` is a function parameter; `llm.invoke(query).content` is its
application to the bare question. -/

/-- The fragment the PDF step contributes to `combined_answer`. -/
def pdfContribution : Option (Except Unit String) → String
  | none => ""
  | some (Except.error _) => ""
  | some (Except.ok a) =>
    if a != "" then "📘 Context from PDFs:\n" ++ a ++ "\n\n" else ""

/-- The fragment the web step contributes to `combined_answer`. -/
def webContribution : Option (Except Unit String) → String
  | none => ""
  | some (Except.error _) => ""
  | some (Except.ok a) => if a != "" then "🌐 Web Info:\n" ++ a ++ "\n" else ""

/-- One call of the `rag` closure: returns the answer string and the updated
memory. -/
def ragPipeline (pdfRet webRet : Option (Except Unit String))
    (llm : String → Except Unit String) (mem : SimpleMemory)
    (query : String) : String × SimpleMemory :=
  let combined := pdfContribution pdfRet ++ webContribution webRet
  if combined != "" then (combined, mem.save_context query combined)
  else
    match llm query with
    | Except.ok d =>
      ("💡 Direct answer:\n" ++ d, mem.save_context query d)
    | Except.error _ =>
      ("❌ Couldn\x27t retrieve information from any source.", mem)

/-- Does a router result represent a returned string (rather than an escaped
exception)? -/
def isOkAnswer : Except Unit String → Bool
  | Except.ok _ => true
  | Except.error _ => false

/-- C4: for every question, `classify_query` computes the graph and retrieval
scores (keyword substring counts plus a bonus of 2 per matching regex pattern
on the lower-cased question, the content of `kgScore`/`ragScore`) and decides:
hybrid when both scores are nonzero, `kg` when the graph score is larger,
`rag` when the retrieval score is larger, hybrid on a tie; and the result is
always exactly one of the three tags. -/
theorem classify_decision_total (query : String) :
    (classify_query query =
      if kgScore query > 0 ∧ ragScore query > 0 then QueryType.hybrid
      else if kgScore query > ragScore query then QueryType.kg
      else if ragScore query > kgScore query then QueryType.rag
      else QueryType.hybrid) ∧
    (classify_query query = QueryType.kg ∨ classify_query query = QueryType.rag ∨
      classify_query query = QueryType.hybrid) := by
  refine ⟨rfl, ?_⟩
  cases hq : classify_query query
  · exact Or.inl rfl
  · exact Or.inr (Or.inl rfl)
  · exact Or.inr (Or.inr rfl)

/-- C5 counterexample: the question "scheme how  to" (two spaces) contains the
graph keyword "scheme" and no retrieval keyword as a substring, yet
`classify_query` does not return the graph tag: the retrieval regex
`\bhow\s+to\b` fires without any retrieval keyword being a substring, so both
scores are nonzero and the classifier answers hybrid. -/
theorem classify_graph_kw_cex :
    containsSeq "scheme".toList (lowStr "scheme how  to") = true ∧
    RAG_KEYWORDS.all
      (fun kw => !containsSeq kw.toList (lowStr "scheme how  to")) = true ∧
    classify_query "scheme how  to" = QueryType.hybrid := by decide

/-- C5 (amended): a question that contains a graph keyword, contains no
retrieval keyword, and additionally matches no retrieval regex pattern is
classified `kg`. -/
theorem classify_graph_kw_only (query : String)
    (hkw : ∃ kw ∈ KG_KEYWORDS, containsSeq kw.toList (lowStr query) = true)
    (hnk : ∀ kw ∈ RAG_KEYWORDS, containsSeq kw.toList (lowStr query) = false)
    (hnp : ragPatternScore (lowStr query) = 0) :
    classify_query query = QueryType.kg := by
  have hrag : ragScore query = 0 := by
    unfold ragScore keywordScore
    rw [hnp, Nat.add_zero, List.countP_eq_zero]
    intro kw hkwmem
    simpa using hnk kw hkwmem
  have hkg : 0 < kgScore query := by
    unfold kgScore keywordScore
    have hpos : 0 < List.countP
        (fun kw => containsSeq kw.toList (lowStr query)) KG_KEYWORDS := by
      rw [List.countP_pos_iff]
      obtain ⟨kw, hmem, hc⟩ := hkw
      exact ⟨kw, hmem, hc⟩
    omega
  unfold classify_query
  rw [if_neg (by omega), if_pos (by omega)]

/-- C5 witness: "subsidy" contains the graph keyword "subsidy", no retrieval
keyword, and matches no retrieval pattern, and is classified `kg`. -/
theorem classify_graph_kw_only_witness :
    classify_query "subsidy" = QueryType.kg :=
  classify_graph_kw_only "subsidy" (by decide) (by decide) (by decide)

/-- C6 counterexample: "available somewhere in punjab" contains no graph
keyword and no retrieval keyword as a substring, yet `classify_query` does not
return hybrid: the graph regex `\bavailable\b.*\bin\b` fires without the
keyword "available in" being a substring, so the graph score wins. -/
theorem classify_no_kw_cex :
    KG_KEYWORDS.all
      (fun kw =>
        !containsSeq kw.toList (lowStr "available somewhere in punjab")) = true ∧
    RAG_KEYWORDS.all
      (fun kw =>
        !containsSeq kw.toList (lowStr "available somewhere in punjab")) = true ∧
    classify_query "available somewhere in punjab" = QueryType.kg := by decide

/-- C6 (amended): a question that contains no graph keyword, no retrieval
keyword, and matches no regex pattern of either list is classified hybrid
(both scores are zero, so the tie default applies). -/
theorem classify_no_signal_hybrid (query : String)
    (h1 : ∀ kw ∈ KG_KEYWORDS, containsSeq kw.toList (lowStr query) = false)
    (h2 : ∀ kw ∈ RAG_KEYWORDS, containsSeq kw.toList (lowStr query) = false)
    (h3 : kgPatternScore (lowStr query) = 0)
    (h4 : ragPatternScore (lowStr query) = 0) :
    classify_query query = QueryType.hybrid := by
  have hkg : kgScore query = 0 := by
    unfold kgScore keywordScore
    rw [h3, Nat.add_zero, List.countP_eq_zero]
    intro kw hkwmem
    simpa using h1 kw hkwmem
  have hrag : ragScore query = 0 := by
    unfold ragScore keywordScore
    rw [h4, Nat.add_zero, List.countP_eq_zero]
    intro kw hkwmem
    simpa using h2 kw hkwmem
  unfold classify_query
  rw [if_neg (by omega), if_neg (by omega), if_neg (by omega)]

/-- C6 witness: "hello" has no keywords and no pattern matches and is
classified hybrid. -/
theorem classify_no_signal_hybrid_witness :
    classify_query "hello" = QueryType.hybrid :=
  classify_no_signal_hybrid "hello" (by decide) (by decide) (by decide)
    (by decide)

theorem string_append_ne_empty_left (a b : String) (h : a ≠ "") :
    a ++ b ≠ "" := by
  cases a with
  | mk da =>
    cases b with
    | mk db =>
      intro he
      apply h
      have hd : da ++ db = [] := congrArg String.data he
      have hda : da = [] := (List.append_eq_nil.mp hd).1
      rw [hda]

theorem string_append_ne_empty_right (a b : String) (h : b ≠ "") :
    a ++ b ≠ "" := by
  cases a with
  | mk da =>
    cases b with
    | mk db =>
      intro he
      apply h
      have hd : da ++ db = [] := congrArg String.data he
      have hdb : db = [] := (List.append_eq_nil.mp hd).2
      rw [hdb]

theorem isRealKG_ne_empty {s : String} (h : isRealKG s = true) : s ≠ "" := by
  intro he
  subst he
  simp [isRealKG] at h

/-- C1 counterexample: on the question "how to grow rice" (classified `rag`)
with a retrieval adapter that raises, `route_query` lets the backend exception
escape instead of returning a string: the primary retrieval call sites are not
wrapped. -/
theorem route_backend_exception_cex :
    routeQuery (fun _ => Except.ok "") (fun _ => Except.error ()) true
      "how to grow rice" = Except.error () := by rfl

theorem isOkAnswer_ok (s : String) : isOkAnswer (Except.ok s) = true := rfl

theorem isOkAnswer_map (f : String → String) (e : Except Unit String) :
    isOkAnswer (Except.map f e) = isOkAnswer e := by
  cases e <;> rfl

theorem isOkAnswer_ite (c : Prop) [Decidable c] (x y : Except Unit String) :
    isOkAnswer (if c then x else y) = if c then isOkAnswer x else isOkAnswer y := by
  split <;> rfl

/-- C1 (amended): every graph-adapter call site and the enrichment retrieval
call are defensively wrapped, so for every question, every `use_kg` flag and
every graph-adapter outcome (value or exception), `route_query` returns a
string provided the retrieval adapter itself returns normally; an exception of
the retrieval adapter on a primary retrieval path escapes. -/
theorem route_total_when_rag_ok (kgA ragA : String → Except Unit String)
    (useKg : Bool) (query : String)
    (h : ∀ s, ∃ a, ragA s = Except.ok a) :
    isOkAnswer (routeQuery kgA ragA useKg query) = true := by
  obtain ⟨a, ha⟩ := h query
  cases hcl : classify_query query <;> cases hu : useKg <;>
    cases hkg : kgA query <;>
    simp only [routeQuery, hcl, hkg, ha, isOkAnswer_map] <;>
    simp [isOkAnswer_ite, isOkAnswer_ok]

/-- C1 witness: a graph adapter that always raises combined with a retrieval
adapter that always answers still yields a string. -/
theorem route_total_when_rag_ok_witness :
    isOkAnswer
      (routeQuery (fun _ => Except.error ()) (fun _ => Except.ok "answer")
        true "hello") = true :=
  route_total_when_rag_ok _ _ true "hello" (fun _ => ⟨"answer", rfl⟩)

/-- C2, evaluation at the failing input: "list schemes for farmers" is
classified `kg`; when the graph adapter returns its own "no structured data"
marker, `route_query` does not fall back entirely to retrieval but uses the
marker as the primary answer and appends the enrichment context. -/
theorem route_kg_nodata_eval :
    classify_query "list schemes for farmers" = QueryType.kg ∧
    routeQuery (fun _ => Except.ok KG_EMPTY)
        (fun _ => Except.ok "retrieval answer") true
        "list schemes for farmers" =
      Except.ok
        "📊 No structured data found in the Knowledge Graph.\n\n\n📖 Additional Context:\nretrieval answer" := by
  exact ⟨rfl, rfl⟩

/-- C3: under hybrid classification, with both adapters returning normally:
graph-and-retrieval non-empty concatenates graph, blank line, retrieval;
exactly one non-empty side is returned alone; both empty yields exactly the
sentinel.  A graph value counts as non-empty when it is a real result rather
than one of the adapter's empty/unavailable markers (`isRealKG`, the filter of
the hybrid branch). -/
theorem route_hybrid_fusion (kgA ragA : String → Except Unit String)
    (query g r : String)
    (hc : classify_query query = QueryType.hybrid)
    (hg : kgA query = Except.ok g) (hr : ragA query = Except.ok r) :
    (isRealKG g = true → r ≠ "" →
      routeQuery kgA ragA true query = Except.ok (g ++ "\n\n" ++ r)) ∧
    (isRealKG g = true → r = "" →
      routeQuery kgA ragA true query = Except.ok g) ∧
    (isRealKG g = false → r ≠ "" →
      routeQuery kgA ragA true query = Except.ok r) ∧
    (isRealKG g = false → r = "" →
      routeQuery kgA ragA true query = Except.ok NO_ANSWER) := by
  refine ⟨?_, ?_, ?_, ?_⟩ <;> intro h1 h2
  · have hge : g ≠ "" := isRealKG_ne_empty h1
    have hcat : g ++ "\n\n" ++ r ≠ "" :=
      string_append_ne_empty_left _ _ (string_append_ne_empty_left _ _ hge)
    simp [routeQuery, Except.map, hc, hg, hr, h1, h2, hge, hcat]
  · have hge : g ≠ "" := isRealKG_ne_empty h1
    simp [routeQuery, Except.map, hc, hg, hr, h1, h2, hge]
  · simp [routeQuery, Except.map, hc, hg, hr, h1, h2]
  · simp [routeQuery, Except.map, hc, hg, hr, h1, h2, NO_ANSWER]

/-- C3 witness: hybrid question "hello", graph fact and retrieval answer both
non-empty, fused with a blank line. -/
theorem route_hybrid_fusion_witness :
    routeQuery (fun _ => Except.ok "A --[R]→ B") (fun _ => Except.ok "ctx")
      true "hello" = Except.ok "A --[R]→ B\n\nctx" :=
  (route_hybrid_fusion (fun _ => Except.ok "A --[R]→ B")
      (fun _ => Except.ok "ctx") "hello" "A --[R]→ B" "ctx" rfl rfl rfl).1
    (by decide) (by decide)

/-- C9: with `use_kg = False` the graph adapter is never consulted — the
result does not depend on it, for any classification — and the answer is the
retrieval answer, or the sentinel when that answer is empty. -/
theorem route_kg_disabled (kgA kgB ragA : String → Except Unit String)
    (query r : String) (hr : ragA query = Except.ok r) :
    routeQuery kgA ragA false query =
      Except.ok (if r = "" then NO_ANSWER else r) ∧
    routeQuery kgA ragA false query = routeQuery kgB ragA false query := by
  have key : ∀ kgC : String → Except Unit String,
      routeQuery kgC ragA false query =
        Except.ok (if r = "" then NO_ANSWER else r) := by
    intro kgC
    by_cases hre : r = ""
    · subst hre
      simp [routeQuery, Except.map, hr]
    · simp [routeQuery, Except.map, hr, hre]
  exact ⟨key kgA, (key kgA).trans (key kgB).symm⟩

/-- C9 witness: graph disabled, two different graph adapters, identical
answers; the retrieval answer is returned as-is. -/
theorem route_kg_disabled_witness :
    routeQuery (fun _ => Except.error ()) (fun _ => Except.ok "hello world")
        false "subsidy" = Except.ok "hello world" ∧
    routeQuery (fun _ => Except.error ()) (fun _ => Except.ok "hello world")
        false "subsidy" =
      routeQuery (fun _ => Except.ok "X") (fun _ => Except.ok "hello world")
        false "subsidy" :=
  route_kg_disabled (fun _ => Except.error ()) (fun _ => Except.ok "X")
    (fun _ => Except.ok "hello world") "subsidy" "hello world" rfl

theorem save_context_k (m : SimpleMemory) (i o : String) :
    (m.save_context i o).k = m.k := by
  simp only [SimpleMemory.save_context]
  split <;> rfl

theorem save_context_len (m : SimpleMemory) (i o : String)
    (h : m.chat_history.length ≤ m.k) :
    (m.save_context i o).chat_history.length ≤ m.k := by
  simp only [SimpleMemory.save_context]
  split
  · simp only [List.length_tail, List.length_append, List.length_cons,
      List.length_nil]
    omega
  · rename_i hle
    simp only [List.length_append, List.length_cons, List.length_nil] at hle ⊢
    omega

theorem foldl_save_inv (ts : List (String × String)) (m : SimpleMemory)
    (h : m.chat_history.length ≤ m.k) :
    (ts.foldl (fun mm p => mm.save_context p.1 p.2) m).k = m.k ∧
    (ts.foldl (fun mm p => mm.save_context p.1 p.2) m).chat_history.length ≤
      m.k := by
  induction ts generalizing m with
  | nil => exact ⟨rfl, h⟩
  | cons t ts ih =>
    have hk := save_context_k m t.1 t.2
    have hlen := save_context_len m t.1 t.2 h
    have := ih (m.save_context t.1 t.2) (by rw [hk]; exact hlen)
    rw [hk] at this
    exact this

/-- C7: after any sequence of `save_context` calls starting from a fresh
memory of capacity `k`, the history holds at most `k` turns; and a
`save_context` performed while the history is exactly at capacity (with
capacity positive) drops the oldest turn, keeps the survivors in order and
appends the new turn at the end. -/
theorem memory_bounded_fifo (k : Nat) (ts : List (String × String))
    (m : SimpleMemory) (inp outp : String)
    (hlen : m.chat_history.length = m.k) (hk : 0 < m.k) :
    ((ts.foldl (fun mm p => mm.save_context p.1 p.2)
        (SimpleMemory.init k)).chat_history.length ≤ k) ∧
    (m.save_context inp outp).chat_history =
      m.chat_history.tail ++ [(inp, outp)] := by
  constructor
  · exact (foldl_save_inv ts (SimpleMemory.init k) (Nat.zero_le k)).2
  · have hlen2 : (m.chat_history ++ [(inp, outp)]).length = m.k + 1 := by
      rw [List.length_append, hlen]
      rfl
    have hcond : (m.chat_history ++ [(inp, outp)]).length > m.k := by
      rw [hlen2]
      omega
    simp only [SimpleMemory.save_context]
    rw [if_pos hcond]
    cases hh : m.chat_history with
    | nil =>
      rw [hh] at hlen
      simp at hlen
      omega
    | cons t0 rest => simp

/-- C7 witness: capacity 2, three recorded turns stay within bound; a save at
capacity evicts the oldest turn and appends the new one. -/
theorem memory_bounded_fifo_witness :
    (([("a", "b"), ("c", "d"), ("e", "f")].foldl
        (fun mm p => mm.save_context p.1 p.2)
        (SimpleMemory.init 2)).chat_history.length ≤ 2) ∧
    ((SimpleMemory.mk 2 [("x", "y"), ("z", "w")]).save_context
        "q" "r").chat_history = [("z", "w"), ("q", "r")] :=
  memory_bounded_fifo 2 [("a", "b"), ("c", "d"), ("e", "f")]
    (SimpleMemory.mk 2 [("x", "y"), ("z", "w")]) "q" "r" rfl (by decide)

theorem scanKw_of_leftmost (l : List Char) :
    ∀ (i : Nat) (kw : List Char), kwAt (l.drop i) = some kw →
      (∀ j, j < i → kwAt (l.drop j) = none) → scanKw l = some kw := by
  induction l with
  | nil =>
    intro i kw ha _
    have h0 : kwAt ([] : List Char) = none := rfl
    rw [List.drop_nil, h0] at ha
    exact Option.noConfusion ha
  | cons c rest ih =>
    intro i kw ha hb
    cases i with
    | zero =>
      rw [List.drop_zero] at ha
      unfold scanKw
      rw [ha]
    | succ i =>
      have h0 : kwAt (c :: rest) = none := by
        have := hb 0 (Nat.succ_pos i)
        rwa [List.drop_zero] at this
      unfold scanKw
      rw [h0]
      exact ih i kw ha (fun j hj => hb (j + 1) (Nat.succ_lt_succ hj))

/-- C8 counterexample: on "policy on subsidy" the source extractor returns the
leftmost listed term "policy", while reading the fixed term list "in priority
order — first match wins" (the regex alternation lists `subsidy` before
`policy`) yields "subsidy". -/
theorem extract_keyword_order_cex :
    extractKeyword "policy on subsidy" = "policy" ∧
    extractKeywordSpecOrder "policy on subsidy" = "subsidy" ∧
    "policy" ≠ "subsidy" := ⟨rfl, rfl, by decide⟩

/-- C8 (amended): keyword extraction (a) scans the lower-cased question left
to right and takes the leftmost occurrence of a listed high-value term
(alternation order only breaking ties at one position); (b) when no listed
term occurs, takes the first content word (`\b[a-z]{3,}\b`) surviving the
stop-word filter; (c) when no such word exists, uses the whole lower-cased
question. -/
theorem extract_keyword_stages :
    (∀ (question : String) (i : Nat) (kw : List Char),
        kwAt ((lowStr question).drop i) = some kw →
        (∀ j, j < i → kwAt ((lowStr question).drop j) = none) →
        extractKeyword question = String.mk kw) ∧
    (∀ (question : String) (w : List Char) (ws : List (List Char)),
        scanKw (lowStr question) = none → filteredWords question = w :: ws →
        extractKeyword question = String.mk w) ∧
    (∀ question : String,
        scanKw (lowStr question) = none → filteredWords question = [] →
        extractKeyword question = String.mk (lowStr question)) := by
  refine ⟨?_, ?_, ?_⟩
  · intro question i kw ha hb
    unfold extractKeyword
    rw [scanKw_of_leftmost (lowStr question) i kw ha hb]
  · intro question w ws h1 h2
    unfold extractKeyword
    rw [h1, h2]
  · intro question h1 h2
    unfold extractKeyword
    rw [h1, h2]

/-- C8 witness: "policy on subsidy" has its leftmost listed term at position
0, and the extractor returns it. -/
theorem extract_keyword_stages_witness :
    extractKeyword "policy on subsidy" = "policy" :=
  extract_keyword_stages.1 "policy on subsidy" 0 "policy".toList rfl
    (fun j hj => absurd hj (Nat.not_lt_zero j))

/-- C10: when the PDF retrieval step and the web retrieval step contribute
nothing (empty answers, absent retrievers, or caught failures), the pipeline
does not return empty: it calls the generation model directly on the bare
question, records that turn in memory, and returns the answer behind the
direct-answer tag; the failure message appears only when that direct call
itself raises, and then memory is unchanged. -/
theorem rag_direct_fallback (pdfRet webRet : Option (Except Unit String))
    (llm : String → Except Unit String) (mem : SimpleMemory)
    (query d : String)
    (hpdf : pdfContribution pdfRet = "") (hweb : webContribution webRet = "") :
    (llm query = Except.ok d →
      ragPipeline pdfRet webRet llm mem query =
        ("💡 Direct answer:\n" ++ d, mem.save_context query d)) ∧
    (llm query = Except.error () →
      ragPipeline pdfRet webRet llm mem query =
        ("❌ Couldn\x27t retrieve information from any source.", mem)) := by
  constructor <;> intro h <;> simp [ragPipeline, hpdf, hweb, h]

/-- C10 witness: no PDF retriever, web step answers empty, generation model
answers: the pipeline returns the tagged direct answer and records the turn. -/
theorem rag_direct_fallback_witness :
    ragPipeline none (some (Except.ok "")) (fun _ => Except.ok "forty two")
        (SimpleMemory.init 5) "hi" =
      ("💡 Direct answer:\nforty two",
        SimpleMemory.mk 5 [("hi", "forty two")]) :=
  (rag_direct_fallback none (some (Except.ok ""))
      (fun _ => Except.ok "forty two") (SimpleMemory.init 5) "hi" "forty two"
      rfl rfl).1 rfl

end AgriRAG
